import Mathlib

/-!
# Verification of the ray-tracer core of `my-little-raytracer`

Shallow embedding of the recursive ray tracer (`Scene::ComputeRayColor`,
`Scene::IsPointInShadow`, `Material::ShadeBlinnPhong`,
`Scene::RandomRayInHemisphere`, `Scene::BuildSceneFromFile`).

Modelling decisions, applied consistently below:
* `double` is modelled by `ℚ`.  Euclidean length (`glm::length`) and
  `glm::normalize` need a square root, which `ℚ` lacks; they are therefore
  modelled through an explicit length function carried by the scene
  (`SceneM.len`).  None of the verified properties depends on which function
  is supplied.
* glm vectors `dvec3` / `dvec4` are `ℚ × ℚ × ℚ` / `ℚ × ℚ × ℚ × ℚ`;
  `glm` componentwise arithmetic coincides with the product ring structure.
* Bodies absent from the repository snapshot (`SceneObject::Hit`, the
  primitives' `IntersectLocal`, `Ray3D::FindLocAtTime`, `ReadValue`/
  `ReadObject`) are modelled from the spec; each such definition is marked
  `Modelled from the spec:` in its doc comment.
-/

/-- `glm::dvec3`, componentwise arithmetic (the product ring). -/
abbrev Vec3 : Type := ℚ × ℚ × ℚ

/-- `glm::dvec4` (homogeneous point/vector), componentwise arithmetic. -/
abbrev Vec4 : Type := ℚ × ℚ × ℚ × ℚ

/-- Four-component dot product, as `glm::dot` on `dvec4`. -/
def dot4 (a b : Vec4) : ℚ :=
  a.1 * b.1 + a.2.1 * b.2.1 + a.2.2.1 * b.2.2.1 + a.2.2.2 * b.2.2.2

/-- Three-component dot product, as `glm::dot` on `dvec3`. -/
def dot3 (a b : Vec3) : ℚ :=
  a.1 * b.1 + a.2.1 * b.2.1 + a.2.2 * b.2.2

/-- Componentwise division of a `dvec4` by a scalar (`v / s` in glm). -/
def vdiv4 (v : Vec4) (q : ℚ) : Vec4 :=
  (v.1 / q, v.2.1 / q, v.2.2.1 / q, v.2.2.2 / q)

/-- Componentwise division of a `dvec3` by a scalar (`v / s` in glm). -/
def vdiv3 (v : Vec3) (q : ℚ) : Vec3 :=
  (v.1 / q, v.2.1 / q, v.2.2 / q)

/-- `glm::normalize` on `dvec4`: `v / length(v)`, with the length function
passed explicitly (ℚ has no square root; see the header comment). -/
def normalizeV (len : Vec4 → ℚ) (v : Vec4) : Vec4 :=
  vdiv4 v (len v)

/-- Zero the homogeneous coordinate: `hit.nor.w = 0.0`. -/
def setW0 (v : Vec4) : Vec4 :=
  (v.1, v.2.1, v.2.2.1, 0)

/-- `glm::reflect(I, N) = I - 2 * dot(N, I) * N`. -/
def reflectV (i n : Vec4) : Vec4 :=
  i - (2 * dot4 n i) • n

/-- Drop the homogeneous coordinate of a `dvec4` (the `dvec3(v)` cast). -/
def vec4to3 (v : Vec4) : Vec3 :=
  (v.1, v.2.1, v.2.2.1)

/-- `Scene::ClampDouble`: two sequential conditional assignments. -/
def ClampDouble (num min max : ℚ) : ℚ :=
  let n1 := if num < min then min else num
  if n1 > max then max else n1

/-- `Scene::ClampVector`: clamp each component. -/
def ClampVector (v : Vec3) (min max : ℚ) : Vec3 :=
  (ClampDouble v.1 min max, ClampDouble v.2.1 min max, ClampDouble v.2.2 min max)

/-- `Material` (src/Material.h): shading coefficients.  The source stores
`specularExp` as a `double` used through `std::pow`; the embedding restricts
it to a natural exponent, which covers every scene the program ships. -/
structure Material where
  kd : Vec3
  ks : Vec3
  ke : Vec3
  reflective : ℚ
  specularExp : ℕ
deriving DecidableEq

/-- `Ray3D`: origin (w = 1) plus direction (w = 0). -/
structure Ray where
  pos : Vec4
  dir : Vec4
deriving DecidableEq

/-- Modelled from the spec: `Ray3D::FindLocAtTime` (header not in the
snapshot) — `PositionAt(t)` derives the point `origin + t·direction`. -/
def Ray.FindLocAtTime (r : Ray) (t : ℚ) : Vec4 :=
  r.pos + t • r.dir

/-- `HitResult` (header not in the snapshot, fields as used by Scene.cpp):
current-best `t` (initialised to +infinity, modelled by `⊤ : WithTop ℚ`),
surface normal, world-space location, and the owning object, modelled as the
index of the object in the scene's `allObjects` list (each `push_back`
creates a distinct `shared_ptr`, so list position is the object's identity). -/
structure HitResult where
  t : WithTop ℚ := ⊤
  nor : Vec4 := (0, 0, 0, 0)
  loc : Vec4 := (0, 0, 0, 0)
  hitObject : Option ℕ := none
deriving DecidableEq

instance : Inhabited HitResult := ⟨{}⟩

/-- A scene object.  The primitive bodies (`Sphere`/`Plane`/`Square`/
`TriangleMesh::IntersectLocal`) are not in the snapshot, so the local
root-finding is abstracted into `roots`: the candidate ray parameters the
primitive's local test produces for a given ray.  `localNor` is the
local-space normal at a root, `invT` the multiply by the object's
inverse-transpose world matrix (`GetInverseTranspose`). -/
structure SceneObjectM where
  roots : Ray → List ℚ
  localNor : Ray → ℚ → Vec4
  invT : Vec4 → Vec4
  mat : Material

instance : Inhabited SceneObjectM :=
  ⟨{ roots := fun _ => [], localNor := fun _ _ => (0, 0, 0, 0),
     invT := id, mat := ⟨1, 1, 1, 0, 0⟩ }⟩

/-- A light as consumed by `ComputeRayColor`: a sampled location
(`GetLocation`), a scalar intensity (`light.intensity` in
`ShadeBlinnPhong`), and the owning scene object (`GetObject`), `none` for a
light with no owning object. -/
structure LightM where
  pos : Vec4
  intensity : ℚ
  objIdx : Option ℕ

/-- The scene state read by the ray-tracing core.  `len` models
`glm::length`, `piv` the constant `glm::pi<double>()`, `sampleHemi` the
RNG-driven `RandomRayInHemisphere` draw used for the global-illumination
ray (the source reads a global `rand()` stream; the embedding fixes the
sampled direction as a function of the surface normal). -/
structure SceneM where
  objects : List SceneObjectM
  lights : List LightM
  backgroundColor : Vec3
  epsilon : ℚ
  maxRecursionDepth : ℕ
  reflectiveThreshold : ℚ
  piv : ℚ
  len : Vec4 → ℚ
  sampleHemi : Vec4 → Vec4

/-- The best (smallest) candidate root within `[tMin, tMax]`. -/
def bestRoot (roots : List ℚ) (tMin : ℚ) (tMax : WithTop ℚ) : Option ℚ :=
  (roots.filter (fun t => decide (tMin ≤ t) && decide ((t : WithTop ℚ) ≤ tMax))).min?

/-- Modelled from the spec: `SceneObject::Hit` (body not in the snapshot).
§4.1: transform the ray to local space, run the primitive's local test, and
only if a strictly closer root in `[tMin, tMax]` is found write the new `t`
and local normal into the hit record and return true; otherwise return
false and leave the record unchanged.  (The local-space transform is folded
into `roots`/`localNor`, which are functions of the world-space ray.) -/
def hitObjM (obj : SceneObjectM) (ray : Ray) (hit : HitResult) (tMin : ℚ)
    (tMax : WithTop ℚ) : Bool × HitResult :=
  match bestRoot (obj.roots ray) tMin tMax with
  | some t =>
    if (t : WithTop ℚ) < hit.t then
      (true, { hit with t := (t : WithTop ℚ), nor := obj.localNor ray t })
    else (false, hit)
  | none => (false, hit)

/-- The nearest-hit scan of `ComputeRayColor` (Scene.cpp:16-22): iterate
over `allObjects` sharing one `HitResult`; whenever `Hit` succeeds, record
the object (by its index) in `hitObject`. -/
def findNearestHitAux (ray : Ray) (eps : ℚ) :
    ℕ → List SceneObjectM → HitResult → HitResult
  | _, [], hit => hit
  | i, o :: rest, hit =>
    let r := hitObjM o ray hit eps ⊤
    let hit' := if r.1 then { r.2 with hitObject := some i } else r.2
    findNearestHitAux ray eps (i + 1) rest hit'

/-- The whole scan, starting from the default `HitResult` (t = +infinity). -/
def findNearestHit (objs : List SceneObjectM) (ray : Ray) (eps : ℚ) : HitResult :=
  findNearestHitAux ray eps 0 objs {}

/-- Object `j` of `objs` has `t` as its best valid root for `ray` in
`[eps, ∞)` — the "valid intersection" of claim C1. -/
def validAt (objs : List SceneObjectM) (ray : Ray) (eps : ℚ) (j : ℕ) (t : ℚ) : Prop :=
  ∃ h : j < objs.length, bestRoot ((objs.get ⟨j, h⟩).roots ray) eps ⊤ = some t

/-- The scan loop of `Scene::IsPointInShadow` (Scene.cpp:105-116): iterate
over `allObjects`, skip the light's owning object, and return true on the
first successful `Hit`; the shared `shadowHit` record is threaded exactly as
in the source (it is never changed by a failed `Hit`). -/
def shadowScanAux (s : SceneM) (ray : Ray) (tMax : WithTop ℚ) (lightObj : Option ℕ) :
    ℕ → List SceneObjectM → HitResult → Bool
  | _, [], _ => false
  | i, o :: rest, hit =>
    if some i ≠ lightObj then
      let r := hitObjM o ray hit s.epsilon tMax
      if r.1 then true else shadowScanAux s ray tMax lightObj (i + 1) rest r.2
    else shadowScanAux s ray tMax lightObj (i + 1) rest hit

/-- `Scene::IsPointInShadow` (Scene.cpp:99-125): shadow ray from the hit
location toward the light, `tMin = epsilon`, `tMax =` distance to the
light. -/
def isPointInShadow (s : SceneM) (hitLoc lightLoc : Vec4) (lightObj : Option ℕ) : Bool :=
  let shadowRay : Ray := ⟨hitLoc, normalizeV s.len (lightLoc - hitLoc)⟩
  shadowScanAux s shadowRay ((s.len (lightLoc - hitLoc) : ℚ) : WithTop ℚ) lightObj 0 s.objects {}

/-- `Material::ShadeBlinnPhong` (src/Material.h:32-44), translated line by
line; `glm::normalize` goes through the explicit length function. -/
def Material.shadeBlinnPhong (len : Vec4 → ℚ) (m : Material) (ray : Ray)
    (hit : HitResult) (light : LightM) : Vec3 :=
  let lightVec := normalizeV len (light.pos - hit.loc)
  let cd := max 0 (dot4 lightVec hit.nor) • m.kd
  let eyeVec := (-1 : ℚ) • ray.dir
  let halfVec := normalizeV len (eyeVec + lightVec)
  let cs := (max 0 (dot4 halfVec hit.nor)) ^ m.specularExp • m.ks
  light.intensity • (cd + cs)

/-- The body of `ComputeRayColor`'s hit branch (Scene.cpp:26-94), with the
two recursive `ComputeRayColor` calls abstracted into `recur` (the scene's
radiance function at the two `depth + 1` call sites). -/
def shadeHitWith (s : SceneM) (recur : Ray → ℕ → Bool → Vec3) (ray : Ray)
    (depth : ℕ) (specularRay : Bool) (idx : ℕ) : Vec3 :=
  let hit0 := findNearestHit s.objects ray s.epsilon
  let obj := s.objects.getD idx default
  let hit1 : HitResult :=
    { hit0 with
      loc := ray.FindLocAtTime (hit0.t.untop' 0),
      nor := normalizeV s.len (setW0 (obj.invT hit0.nor)) }
  let mat := obj.mat
  let c0 : Vec3 := (0, 0, 0)
  let c1 := if depth == 0 || specularRay then c0 + mat.ke else c0
  let c2 :=
    if mat.reflective > 0 + s.reflectiveThreshold then
      c1 + mat.ks * (mat.reflective •
        recur ⟨hit1.loc, reflectV ray.dir hit1.nor⟩ (depth + 1) true)
    else c1
  let c3 :=
    if mat.reflective < 1 - s.reflectiveThreshold then
      s.lights.foldl (fun acc light =>
        if !(isPointInShadow s hit1.loc light.pos light.objIdx) then
          acc + (1 - mat.reflective) • mat.shadeBlinnPhong s.len ray hit1 light
        else acc) c2
    else c2
  let ambientGI0 := recur ⟨hit1.loc, s.sampleHemi hit1.nor⟩ (depth + 1) false
  let BRDF := vdiv3 mat.kd s.piv
  let ambientGI1 := ambientGI0 * BRDF
  let pRecip := s.piv
  let ambientGI2 := pRecip • ambientGI1
  let c4 := c3 + ambientGI2
  ClampVector c4 0 1

/-- `Scene::ComputeRayColor` (Scene.cpp:9-97).  The source recursion is
bounded by the depth guard `depth > maxRecursionDepth`; the embedding makes
it structural on the fuel `maxRecursionDepth + 1 - depth`, which the wrapper
`computeRayColor` supplies, and each recursive call at `depth + 1` receives
one unit less fuel — exactly the measure by which the source terminates. -/
def computeGo (s : SceneM) : ℕ → Ray → ℕ → Bool → Vec3
  | 0, _, _, _ => s.backgroundColor
  | fuel + 1, ray, depth, specularRay =>
    if s.maxRecursionDepth < depth then s.backgroundColor
    else
      match (findNearestHit s.objects ray s.epsilon).hitObject with
      | none => s.backgroundColor
      | some idx => shadeHitWith s (computeGo s fuel) ray depth specularRay idx

/-- `Scene::ComputeRayColor` at its C++ signature: the fuel is fixed by the
depth guard (`maxRecursionDepth + 1 - depth` recursive steps remain). -/
def computeRayColor (s : SceneM) (ray : Ray) (depth : ℕ) (specularRay : Bool) : Vec3 :=
  computeGo s (s.maxRecursionDepth + 1 - depth) ray depth specularRay

/-- The hit record after the post-scan fix-ups of Scene.cpp:30-36 (world
location from `t`, world normal through the inverse transpose with `w`
zeroed then normalized). -/
def worldHit (s : SceneM) (ray : Ray) (hit0 : HitResult) (obj : SceneObjectM) : HitResult :=
  { hit0 with
    loc := ray.FindLocAtTime (hit0.t.untop' 0),
    nor := normalizeV s.len (setW0 (obj.invT hit0.nor)) }

/-- The reflection contribution of Scene.cpp:54-59, with the recursive call
written through `computeRayColor` at `depth + 1`, `specular = true`. -/
def reflTerm (s : SceneM) (ray : Ray) (hit1 : HitResult) (mat : Material) (depth : ℕ) : Vec3 :=
  if mat.reflective > 0 + s.reflectiveThreshold then
    mat.ks * (mat.reflective •
      computeRayColor s ⟨hit1.loc, reflectV ray.dir hit1.nor⟩ (depth + 1) true)
  else 0

/-- The direct (Blinn-Phong) contribution of Scene.cpp:62-69, summed from
zero. -/
def directTerm (s : SceneM) (ray : Ray) (hit1 : HitResult) (mat : Material) : Vec3 :=
  if mat.reflective < 1 - s.reflectiveThreshold then
    s.lights.foldl (fun acc light =>
      if !(isPointInShadow s hit1.loc light.pos light.objIdx) then
        acc + (1 - mat.reflective) • mat.shadeBlinnPhong s.len ray hit1 light
      else acc) 0
  else 0

/-- The global-illumination contribution of Scene.cpp:79-90: recursive
radiance times the Lambertian BRDF `kd / π`, then times the explicit
`pRecip = π`. -/
def giTerm (s : SceneM) (hit1 : HitResult) (mat : Material) (depth : ℕ) : Vec3 :=
  s.piv • (computeRayColor s ⟨hit1.loc, s.sampleHemi hit1.nor⟩ (depth + 1) false * vdiv3 mat.kd s.piv)

/-- Every channel lies in `[0, 1]`. -/
def inUnit (v : Vec3) : Prop :=
  0 ≤ v.1 ∧ v.1 ≤ 1 ∧ 0 ≤ v.2.1 ∧ v.2.1 ≤ 1 ∧ 0 ≤ v.2.2 ∧ v.2.2 ≤ 1

instance (v : Vec3) : Decidable (inUnit v) := by
  unfold inUnit; infer_instance

/-- The Blinn-Phong evaluation written from the spec's words (§4.2):
diffuse = kd × max(0, dot(normal, direction-to-light)); specular =
ks × max(0, dot(normal, half-vector))^specularExponent with half-vector =
normalize(−rayDirection + direction-to-light); result = light intensity ×
(diffuse + specular), no ambient and no emissive term. -/
def shadeBlinnPhongSpec (len : Vec4 → ℚ) (m : Material) (ray : Ray)
    (hit : HitResult) (light : LightM) : Vec3 :=
  let dirToLight := normalizeV len (light.pos - hit.loc)
  let halfVec := normalizeV len ((-1 : ℚ) • ray.dir + dirToLight)
  let diffuse := max 0 (dot4 hit.nor dirToLight) • m.kd
  let specular := (max 0 (dot4 hit.nor halfVec)) ^ m.specularExp • m.ks
  light.intensity • (diffuse + specular)

/-! ## Scene-description loader (Scene.cpp:127-196)

`ReadValue` / `ReadObject` live in the missing `Scene.h`; they are modelled
from the spec and C++ stream semantics: extraction reads the next
whitespace-separated token, a failed extraction yields the C++11 default
(`0` for numbers, the empty string for `std::string`) and puts the stream
in a fail state, and every extraction from a failed stream also fails.
A line is modelled by its list of whitespace-separated tokens; numeric
token parsing is a parameter `parseQ` (the embedding does not re-implement
C++ locale parsing). -/

/-- An `istringstream` over one line: remaining tokens plus the fail bit. -/
structure TokStream where
  toks : List String
  failed : Bool

/-- Modelled from the spec: `ReadValue<string>`. -/
def readString : TokStream → String × TokStream
  | ⟨[], _⟩ => ("", ⟨[], true⟩)
  | ⟨tok :: rest, failed⟩ =>
    if failed then ("", ⟨tok :: rest, true⟩) else (tok, ⟨rest, false⟩)

/-- Modelled from the spec: `ReadValue<double>`. -/
def readQ (parseQ : String → Option ℚ) : TokStream → ℚ × TokStream
  | ⟨[], _⟩ => (0, ⟨[], true⟩)
  | ⟨tok :: rest, failed⟩ =>
    if failed then (0, ⟨tok :: rest, true⟩)
    else
      match parseQ tok with
      | some q => (q, ⟨rest, false⟩)
      | none => (0, ⟨tok :: rest, true⟩)

/-- Modelled from the spec: `Scene::ReadVec3` — three `double` reads. -/
def readVec3 (parseQ : String → Option ℚ) (st : TokStream) : Vec3 × TokStream :=
  let (x, s1) := readQ parseQ st
  let (y, s2) := readQ parseQ s1
  let (z, s3) := readQ parseQ s2
  ((x, y, z), s3)

/-- What a `SceneObject` directive parses into (the fields listed by the
format comment at Scene.cpp:130). -/
structure ParsedObject where
  subclass : String
  name : String
  pos : Vec3
  rot : Vec3
  scale : Vec3
  kd : Vec3
  ks : Vec3
  ke : Vec3
  reflectance : ℚ
  specularExp : ℚ
deriving DecidableEq

/-- Modelled from the spec: `ReadObject<T>` — reads name, position,
rotation, scale, kd, ks, ke, reflectance and specular exponent in order. -/
def readObject (parseQ : String → Option ℚ) (subclass : String)
    (st : TokStream) : ParsedObject × TokStream :=
  let (name, s1) := readString st
  let (pos, s2) := readVec3 parseQ s1
  let (rot, s3) := readVec3 parseQ s2
  let (scale, s4) := readVec3 parseQ s3
  let (kd, s5) := readVec3 parseQ s4
  let (ks, s6) := readVec3 parseQ s5
  let (ke, s7) := readVec3 parseQ s6
  let (refl, s8) := readQ parseQ s7
  let (exp, s9) := readQ parseQ s8
  (⟨subclass, name, pos, rot, scale, kd, ks, ke, refl, exp⟩, s9)

/-- The loader's accumulated state: parsed objects, registered emissive
light names, the camera directive (if seen) and the logged error lines
(each stored as its token list, as printed by Scene.cpp:191-192). -/
structure LoadState where
  objects : List ParsedObject := []
  lightNames : List String := []
  camera : Option (Vec3 × Vec3 × ℚ) := none
  errors : List (List String) := []
deriving DecidableEq

/-- One iteration of the `while (file.getline(...))` loop of
`Scene::BuildSceneFromFile` (Scene.cpp:146-194).  Known subclasses push an
object; after any `SceneObject` directive the source inspects
`allObjects.back()` and registers an emissive light when `|ke| > 0`
(`|ke| > 0 ↔ ke·ke > 0`, avoiding the square root).  For an unknown
subclass with no objects yet `back()` is undefined behaviour in the
source; the model leaves the state unchanged there.  An unrecognized
directive logs the line and changes nothing else; `#` lines are skipped. -/
def processLine (parseQ : String → Option ℚ) (st : LoadState)
    (line : List String) : LoadState :=
  let s0 : TokStream := ⟨line, false⟩
  let (objectType, s1) := readString s0
  if objectType = "Camera" then
    let (pos, s2) := readVec3 parseQ s1
    let (rot, s3) := readVec3 parseQ s2
    let (fov, _) := readQ parseQ s3
    { st with camera := some (pos, rot, fov) }
  else if objectType = "SceneObject" then
    let (subclass, s2) := readString s1
    let st' :=
      if subclass = "Sphere" ∨ subclass = "Plane" ∨ subclass = "Square"
          ∨ subclass = "TriangleMesh" then
        { st with objects := st.objects ++ [(readObject parseQ subclass s2).1] }
      else st
    match st'.objects.getLast? with
    | some topObj =>
      if dot3 topObj.ke topObj.ke > 0 then
        { st' with lightNames := st'.lightNames ++ [topObj.name ++ "_EmissiveLight"] }
      else st'
    | none => st'
  else if objectType = "#" then st
  else { st with errors := st.errors ++ [line] }

/-- `Scene::BuildSceneFromFile`'s line loop over the tokenized lines of the
scene file. -/
def BuildSceneFromFile (parseQ : String → Option ℚ)
    (lines : List (List String)) : LoadState :=
  lines.foldl (processLine parseQ) {}

/-! ## `Scene::RandomRayInHemisphere` (Scene.cpp:209-233) -/

/-- Numeric model of the `<cmath>` functions the sampler uses (`sqrt`,
`cos`, `sin`, and the constant π): ℚ carries none of them, so they are
parameters, and the hemisphere theorem assumes exactly the identities the
real functions satisfy at the points where the source evaluates them. -/
structure TrigModel where
  sqrtF : ℚ → ℚ
  cosF : ℚ → ℚ
  sinF : ℚ → ℚ
  piT : ℚ

/-- `Scene::RandomRayInHemisphere` at sampled values `u, v` (the two
`rand() / RAND_MAX` draws).  `rot` models
`glm::rotate(·, acos(dot(up, normal)), cross(up, normal))` — the rotation
taking the canonical up axis to the normal; the theorem assumes its
defining properties (it preserves dot products and maps up to the normal). -/
def RandomRayInHemisphere (m : TrigModel) (rot : Vec3 → Vec3) (normal : Vec4)
    (u v : ℚ) : Vec3 :=
  let r := m.sqrtF u
  let theta := 2 * m.piT * v
  let localDir : Vec3 := (r * m.cosF theta, m.sqrtF (1 - u), r * m.sinF theta)
  let localUp : Vec3 := (0, 1, 0)
  if localUp = vec4to3 normal then localDir
  else if localUp = (-1 : ℚ) • vec4to3 normal then (-1 : ℚ) • localDir
  else rot localDir

/-! ## Concrete data for witnesses -/

/-- A demo object whose local test yields the single root 3. -/
def demoObjA : SceneObjectM :=
  { roots := fun _ => [3], localNor := fun _ _ => (0, 1, 0, 0), invT := id,
    mat := ⟨(1, 0, 0), (1, 1, 1), (0, 0, 0), 0, 10⟩ }

/-- A demo object whose local test yields the single root 2. -/
def demoObjB : SceneObjectM :=
  { roots := fun _ => [2], localNor := fun _ _ => (0, 1, 0, 0), invT := id,
    mat := ⟨(0, 1, 0), (1, 1, 1), (0, 0, 0), 0, 10⟩ }

/-- A demo emissive object (root 1, ke = (1/2, 1/4, 0), diffuse). -/
def demoObjE : SceneObjectM :=
  { roots := fun _ => [1], localNor := fun _ _ => (0, 1, 0, 0), invT := id,
    mat := ⟨(0, 0, 0), (0, 0, 0), (1/2, 1/4, 0), 0, 10⟩ }

/-- A demo primary ray. -/
def demoRay : Ray := ⟨(0, 0, 0, 1), (0, 0, 1, 0)⟩

/-- A demo scene (no lights, two plain objects). -/
def demoScene : SceneM :=
  { objects := [demoObjA, demoObjB], lights := [],
    backgroundColor := (0, 0, 0), epsilon := 0, maxRecursionDepth := 2,
    reflectiveThreshold := 0, piv := 3, len := fun _ => 1,
    sampleHemi := fun _ => (0, 1, 0, 0) }

/-- A demo scene holding one emissive object. -/
def demoSceneE : SceneM :=
  { demoScene with objects := [demoObjE] }

/-- A scene whose background color is outside `[0, 1]` and which contains
no objects, so every ray misses. -/
def badBgScene : SceneM :=
  { demoScene with objects := [], backgroundColor := (2, 0, 0) }

/-- The default hit record (`t` at +infinity). -/
def hit0 : HitResult := {}

/-- The loader state before any line is processed. -/
def emptyLoad : LoadState := {}

/-- A degenerate but law-abiding trig model for the witness: correct at the
points `u = 0`, `v = 0`. -/
def demoTrig : TrigModel :=
  { sqrtF := fun x => if x = 1 then 1 else 0, cosF := fun _ => 1,
    sinF := fun _ => 0, piT := 0 }

lemma validAt_nil (ray : Ray) (eps : ℚ) (j : ℕ) (t : ℚ) : ¬ validAt [] ray eps j t := by
  rintro ⟨h, -⟩
  simp at h

lemma validAt_cons_zero {o : SceneObjectM} {rest : List SceneObjectM} {ray : Ray}
    {eps t : ℚ} :
    validAt (o :: rest) ray eps 0 t ↔ bestRoot (o.roots ray) eps ⊤ = some t := by
  constructor
  · rintro ⟨h, hb⟩
    simpa using hb
  · intro hb
    exact ⟨by simp, by simpa using hb⟩

lemma validAt_cons_succ {o : SceneObjectM} {rest : List SceneObjectM} {ray : Ray}
    {eps t : ℚ} {k : ℕ} :
    validAt (o :: rest) ray eps (k + 1) t ↔ validAt rest ray eps k t := by
  constructor
  · rintro ⟨h, hb⟩
    refine ⟨by simp only [List.length_cons] at h; omega, ?_⟩
    simpa using hb
  · rintro ⟨h, hb⟩
    exact ⟨by simp only [List.length_cons]; omega, by simpa using hb⟩

/-- Loop invariant of the nearest-hit scan: starting from any accumulator,
either no object of the remaining list improves on the accumulator's `t`
(and the accumulator is returned unchanged), or the scan returns the
earliest object attaining the minimum valid `t`, which strictly improves on
the accumulator. -/
lemma findNearestHitAux_outcome (ray : Ray) (eps : ℚ) :
    ∀ (objs : List SceneObjectM) (i0 : ℕ) (hit : HitResult),
      (findNearestHitAux ray eps i0 objs hit = hit ∧
        ∀ j t, validAt objs ray eps j t → hit.t ≤ (t : WithTop ℚ))
      ∨ (∃ j t, validAt objs ray eps j t ∧
          (findNearestHitAux ray eps i0 objs hit).t = (t : WithTop ℚ) ∧
          (findNearestHitAux ray eps i0 objs hit).hitObject = some (i0 + j) ∧
          (t : WithTop ℚ) < hit.t ∧
          (∀ k t', validAt objs ray eps k t' → t ≤ t') ∧
          (∀ k t', k < j → validAt objs ray eps k t' → t < t')) := by
  intro objs
  induction objs with
  | nil =>
    intro i0 hit
    left
    exact ⟨rfl, fun j t hv => absurd hv (validAt_nil ray eps j t)⟩
  | cons o rest ih =>
    intro i0 hit
    cases heq : bestRoot (o.roots ray) eps ⊤ with
    | none =>
      have hstep : hitObjM o ray hit eps ⊤ = (false, hit) := by
        simp [hitObjM, heq]
      have hred : findNearestHitAux ray eps i0 (o :: rest) hit
          = findNearestHitAux ray eps (i0 + 1) rest hit := by
        simp [findNearestHitAux, hstep]
      rw [hred]
      rcases ih (i0 + 1) hit with ⟨he, hmin⟩ | ⟨j, t, hv, ht, hobj, hlt, hminall, hstrict⟩
      · left
        refine ⟨he, ?_⟩
        intro j t hv
        match j with
        | 0 =>
          rw [validAt_cons_zero, heq] at hv
          cases hv
        | k + 1 => exact hmin k t (validAt_cons_succ.mp hv)
      · right
        refine ⟨j + 1, t, validAt_cons_succ.mpr hv, ht, ?_, hlt, ?_, ?_⟩
        · have harith : i0 + (j + 1) = i0 + 1 + j := by omega
          rw [harith]
          exact hobj
        · intro k t' hv'
          match k with
          | 0 =>
            rw [validAt_cons_zero, heq] at hv'
            cases hv'
          | k' + 1 => exact hminall k' t' (validAt_cons_succ.mp hv')
        · intro k t' hk hv'
          match k with
          | 0 =>
            rw [validAt_cons_zero, heq] at hv'
            cases hv'
          | k' + 1 => exact hstrict k' t' (by omega) (validAt_cons_succ.mp hv')
    | some t0 =>
      by_cases ht0 : (t0 : WithTop ℚ) < hit.t
      · -- the head object strictly improves the accumulator
        have hstep : hitObjM o ray hit eps ⊤
            = (true, { hit with t := (t0 : WithTop ℚ), nor := o.localNor ray t0 }) := by
          simp [hitObjM, heq, ht0]
        have hred : findNearestHitAux ray eps i0 (o :: rest) hit
            = findNearestHitAux ray eps (i0 + 1) rest { hit with t := (t0 : WithTop ℚ), nor := o.localNor ray t0, hitObject := some i0 } := by
          simp [findNearestHitAux, hstep]
        rw [hred]
        rcases ih (i0 + 1) { hit with t := (t0 : WithTop ℚ), nor := o.localNor ray t0, hitObject := some i0 } with
          ⟨he, hmin⟩ | ⟨j, t, hv, ht, hobj, hlt, hminall, hstrict⟩
        · right
          refine ⟨0, t0, validAt_cons_zero.mpr heq, by rw [he], by rw [he]; simp, ht0, ?_, ?_⟩
          · intro k t' hv'
            match k with
            | 0 =>
              rw [validAt_cons_zero, heq] at hv'
              cases hv'
              exact le_refl t0
            | k' + 1 =>
              have h2 : (t0 : WithTop ℚ) ≤ (t' : WithTop ℚ) := hmin k' t' (validAt_cons_succ.mp hv')
              exact_mod_cast h2
          · intro k t' hk hv'
            omega
        · right
          have hlt' : t < t0 := by
            have : (t : WithTop ℚ) < (t0 : WithTop ℚ) := hlt
            exact_mod_cast this
          refine ⟨j + 1, t, validAt_cons_succ.mpr hv, ht, ?_, ?_, ?_, ?_⟩
          · have harith : i0 + (j + 1) = i0 + 1 + j := by omega
            rw [harith]
            exact hobj
          · exact lt_trans (by exact_mod_cast hlt') ht0
          · intro k t' hv'
            match k with
            | 0 =>
              rw [validAt_cons_zero, heq] at hv'
              cases hv'
              exact le_of_lt hlt'
            | k' + 1 => exact hminall k' t' (validAt_cons_succ.mp hv')
          · intro k t' hk hv'
            match k with
            | 0 =>
              rw [validAt_cons_zero, heq] at hv'
              cases hv'
              exact hlt'
            | k' + 1 => exact hstrict k' t' (by omega) (validAt_cons_succ.mp hv')
      · -- the head object's best root does not beat the accumulator
        have hle : hit.t ≤ (t0 : WithTop ℚ) := not_lt.mp ht0
        have hstep : hitObjM o ray hit eps ⊤ = (false, hit) := by
          simp [hitObjM, heq, ht0]
        have hred : findNearestHitAux ray eps i0 (o :: rest) hit
            = findNearestHitAux ray eps (i0 + 1) rest hit := by
          simp [findNearestHitAux, hstep]
        rw [hred]
        rcases ih (i0 + 1) hit with ⟨he, hmin⟩ | ⟨j, t, hv, ht, hobj, hlt, hminall, hstrict⟩
        · left
          refine ⟨he, ?_⟩
          intro j t hv
          match j with
          | 0 =>
            rw [validAt_cons_zero, heq] at hv
            cases hv
            exact hle
          | k + 1 => exact hmin k t (validAt_cons_succ.mp hv)
        · right
          have hlt0 : (t : WithTop ℚ) < (t0 : WithTop ℚ) := lt_of_lt_of_le hlt hle
          have hltq : t < t0 := by exact_mod_cast hlt0
          refine ⟨j + 1, t, validAt_cons_succ.mpr hv, ht, ?_, hlt, ?_, ?_⟩
          · have harith : i0 + (j + 1) = i0 + 1 + j := by omega
            rw [harith]
            exact hobj
          · intro k t' hv'
            match k with
            | 0 =>
              rw [validAt_cons_zero, heq] at hv'
              cases hv'
              exact le_of_lt hltq
            | k' + 1 => exact hminall k' t' (validAt_cons_succ.mp hv')
          · intro k t' hk hv'
            match k with
            | 0 =>
              rw [validAt_cons_zero, heq] at hv'
              cases hv'
              exact hltq
            | k' + 1 => exact hstrict k' t' (by omega) (validAt_cons_succ.mp hv')

/-- C1: the nearest-hit scan of `ComputeRayColor` selects as `hit.hitObject`
the object whose intersection has the globally smallest valid `t` in
`[epsilon, ∞)` along the ray; among objects with equal smallest `t`, the
earliest object in scan order wins. -/
theorem nearestHit_selects_global_min (objs : List SceneObjectM) (ray : Ray) (eps : ℚ)
    (i : ℕ) (hh : (findNearestHit objs ray eps).hitObject = some i) :
    ∃ t : ℚ, validAt objs ray eps i t ∧
      (findNearestHit objs ray eps).t = (t : WithTop ℚ) ∧
      (∀ j t', validAt objs ray eps j t' → t ≤ t') ∧
      (∀ j t', j < i → validAt objs ray eps j t' → t < t') := by
  have h := findNearestHitAux_outcome ray eps objs 0 {}
  rcases h with ⟨he, -⟩ | ⟨j, t, hv, ht, hobj, -, hminall, hstrict⟩
  · rw [show findNearestHit objs ray eps = findNearestHitAux ray eps 0 objs {} from rfl,
      he] at hh
    simp at hh
  · have hij : j = i := by
      rw [show findNearestHit objs ray eps = findNearestHitAux ray eps 0 objs {} from rfl,
        hobj] at hh
      simpa using hh
    subst hij
    exact ⟨t, hv, ht, hminall, hstrict⟩

lemma clampDouble01 (num : ℚ) : 0 ≤ ClampDouble num 0 1 ∧ ClampDouble num 0 1 ≤ 1 := by
  simp only [ClampDouble]
  split_ifs <;> constructor <;> linarith

lemma clampVector_inUnit (v : Vec3) : inUnit (ClampVector v 0 1) := by
  obtain ⟨a, b, c⟩ := v
  have h1 := clampDouble01 a
  have h2 := clampDouble01 b
  have h3 := clampDouble01 c
  exact ⟨h1.1, h1.2, h2.1, h2.2, h3.1, h3.2⟩

/-- C6: once the depth guard trips (`depth > maxRecursionDepth`),
`ComputeRayColor` returns exactly the background color, for every scene
content. -/
theorem depthGuard_returns_background (s : SceneM) (ray : Ray) (spec : Bool)
    (depth : ℕ) (h : s.maxRecursionDepth < depth) :
    computeRayColor s ray depth spec = s.backgroundColor := by
  unfold computeRayColor
  have h0 : s.maxRecursionDepth + 1 - depth = 0 := by omega
  rw [h0]
  rfl

/-- Witness for C6: a populated scene (objects that the ray would hit) at
`depth = maxRecursionDepth + 1` still yields the background color. -/
theorem depthGuard_returns_background_witness :
    demoScene.maxRecursionDepth < 3 ∧
    computeRayColor demoScene demoRay 3 false = demoScene.backgroundColor :=
  ⟨by decide, depthGuard_returns_background demoScene demoRay false 3 (by decide)⟩

/-- C5 (amended): provided every channel of the scene's background color
lies in `[0, 1]`, every channel of any `ComputeRayColor` result lies in
`[0, 1]`. -/
theorem computeRayColor_channels_in_unit (s : SceneM) (hb : inUnit s.backgroundColor)
    (ray : Ray) (depth : ℕ) (spec : Bool) :
    inUnit (computeRayColor s ray depth spec) := by
  unfold computeRayColor
  generalize s.maxRecursionDepth + 1 - depth = fuel
  cases fuel with
  | zero => exact hb
  | succ f =>
    simp only [computeGo]
    split
    · exact hb
    · split
      · exact hb
      · exact clampVector_inUnit _

/-- Witness for C5's amended theorem at a concrete scene whose background
is (0,0,0). -/
theorem computeRayColor_channels_in_unit_witness :
    inUnit demoScene.backgroundColor ∧ inUnit (computeRayColor demoScene demoRay 0 false) :=
  ⟨by decide, computeRayColor_channels_in_unit demoScene (by decide) demoRay 0 false⟩

/-- Counterexample for C5 as stated: with a background color of (2,0,0) a
missed ray returns a channel above 1 — the miss path does not clamp. -/
theorem computeRayColor_unclamped_on_miss :
    ¬ inUnit (computeRayColor badBgScene demoRay 0 false) := by
  decide

lemma dot4_comm (a b : Vec4) : dot4 a b = dot4 b a := by
  unfold dot4
  ring

/-- C8: the source's `ShadeBlinnPhong` computes exactly the spec formula —
light intensity times (kd-weighted clamped diffuse cosine plus ks-weighted
clamped half-vector cosine to the specular exponent), with no ambient or
emissive contribution. -/
theorem shadeBlinnPhong_eq_spec_formula (len : Vec4 → ℚ) (m : Material)
    (ray : Ray) (hit : HitResult) (light : LightM) :
    m.shadeBlinnPhong len ray hit light = shadeBlinnPhongSpec len m ray hit light := by
  simp only [Material.shadeBlinnPhong, shadeBlinnPhongSpec]
  rw [dot4_comm (normalizeV len (light.pos - hit.loc)) hit.nor,
    dot4_comm (normalizeV len ((-1 : ℚ) • ray.dir + normalizeV len (light.pos - hit.loc))) hit.nor]

lemma bestRoot_mem_of_eq_some {roots : List ℚ} {tMin : ℚ} {tMax : WithTop ℚ} {t : ℚ}
    (h : bestRoot roots tMin tMax = some t) :
    t ∈ roots ∧ tMin ≤ t ∧ (t : WithTop ℚ) ≤ tMax := by
  unfold bestRoot at h
  have hmem := List.min?_mem (fun a b => min_choice a b) h
  rw [List.mem_filter] at hmem
  refine ⟨hmem.1, ?_, ?_⟩
  · have := hmem.2
    simp only [Bool.and_eq_true, decide_eq_true_eq] at this
    exact this.1
  · have := hmem.2
    simp only [Bool.and_eq_true, decide_eq_true_eq] at this
    exact this.2

/-- C7: `Hit` returns true only when the local test finds a root within
`[tMin, tMax]` strictly smaller than the record's current `t`, in which
case it writes that root and the local normal into the record; whenever it
returns false the record is unchanged. -/
theorem hit_updates_only_on_strictly_closer_root (obj : SceneObjectM) (ray : Ray)
    (hit : HitResult) (tMin : ℚ) (tMax : WithTop ℚ) :
    ((hitObjM obj ray hit tMin tMax).1 = true →
      ∃ t : ℚ, t ∈ obj.roots ray ∧ tMin ≤ t ∧ (t : WithTop ℚ) ≤ tMax ∧
        (t : WithTop ℚ) < hit.t ∧
        (hitObjM obj ray hit tMin tMax).2
          = { hit with t := (t : WithTop ℚ), nor := obj.localNor ray t }) ∧
    ((hitObjM obj ray hit tMin tMax).1 = false →
      (hitObjM obj ray hit tMin tMax).2 = hit) := by
  cases heq : bestRoot (obj.roots ray) tMin tMax with
  | none =>
    constructor
    · intro h
      simp [hitObjM, heq] at h
    · intro _
      simp [hitObjM, heq]
  | some t =>
    by_cases hlt : (t : WithTop ℚ) < hit.t
    · constructor
      · intro _
        obtain ⟨hmem, h1, h2⟩ := bestRoot_mem_of_eq_some heq
        refine ⟨t, hmem, h1, h2, hlt, ?_⟩
        simp [hitObjM, heq, hlt]
      · intro h
        simp [hitObjM, heq, hlt] at h
    · constructor
      · intro h
        simp [hitObjM, heq, hlt] at h
      · intro _
        simp [hitObjM, heq, hlt]

/-- Witness for C7 at a concrete object and the default hit record. -/
theorem hit_updates_only_on_strictly_closer_root_witness :
    (hitObjM demoObjA demoRay hit0 1 ⊤).1 = true ∧
    (∃ t : ℚ, t ∈ demoObjA.roots demoRay ∧ 1 ≤ t ∧ (t : WithTop ℚ) ≤ ⊤ ∧
      (t : WithTop ℚ) < hit0.t ∧
      (hitObjM demoObjA demoRay hit0 1 ⊤).2
        = { hit0 with t := (t : WithTop ℚ), nor := demoObjA.localNor demoRay t }) := by
  refine ⟨by decide, ?_⟩
  exact (hit_updates_only_on_strictly_closer_root demoObjA demoRay hit0 1 ⊤).1 (by decide)

/-- Witness for C1: with roots 3 (object 0) and 2 (object 1) the scan
selects object 1, whose root 2 is the global minimum. -/
theorem nearestHit_selects_global_min_witness :
    (findNearestHit [demoObjA, demoObjB] demoRay 1).hitObject = some 1 ∧
    ∃ t : ℚ, validAt [demoObjA, demoObjB] demoRay 1 1 t ∧
      (findNearestHit [demoObjA, demoObjB] demoRay 1).t = (t : WithTop ℚ) ∧
      (∀ j t', validAt [demoObjA, demoObjB] demoRay 1 j t' → t ≤ t') ∧
      (∀ j t', j < 1 → validAt [demoObjA, demoObjB] demoRay 1 j t' → t < t') :=
  ⟨by decide, nearestHit_selects_global_min [demoObjA, demoObjB] demoRay 1 1 (by decide)⟩

lemma bestRoot_ne_none_iff {roots : List ℚ} {tMin : ℚ} {tMax : WithTop ℚ} :
    bestRoot roots tMin tMax ≠ none ↔
      ∃ t ∈ roots, tMin ≤ t ∧ (t : WithTop ℚ) ≤ tMax := by
  constructor
  · intro h
    cases heq : bestRoot roots tMin tMax with
    | none => exact absurd heq h
    | some t =>
      obtain ⟨hmem, h1, h2⟩ := bestRoot_mem_of_eq_some heq
      exact ⟨t, hmem, h1, h2⟩
  · rintro ⟨t, hmem, h1, h2⟩ hnone
    unfold bestRoot at hnone
    rw [List.min?_eq_none_iff] at hnone
    have hmemf : t ∈ roots.filter
        (fun t => decide (tMin ≤ t) && decide ((t : WithTop ℚ) ≤ tMax)) :=
      List.mem_filter.mpr ⟨hmem, by simp [h1, h2]⟩
    rw [hnone] at hmemf
    simp at hmemf

lemma hitObjM_fst_default_iff {obj : SceneObjectM} {ray : Ray} {tMin : ℚ}
    {tMax : WithTop ℚ} {hit : HitResult} (htop : hit.t = ⊤) :
    (hitObjM obj ray hit tMin tMax).1 = true ↔
      bestRoot (obj.roots ray) tMin tMax ≠ none := by
  cases heq : bestRoot (obj.roots ray) tMin tMax with
  | none => simp [hitObjM, heq]
  | some t =>
    have hlt : (t : WithTop ℚ) < hit.t := by
      rw [htop]
      exact WithTop.coe_lt_top t
    simp [hitObjM, heq, hlt]

/-- Loop invariant of the shadow scan: with the shared hit record still at
`t = ⊤`, the scan is true iff some listed object, other than the light's
object, has a root within `[epsilon, tMax]`. -/
lemma shadowScanAux_iff (s : SceneM) (ray : Ray) (tMax : WithTop ℚ)
    (lightObj : Option ℕ) :
    ∀ (objs : List SceneObjectM) (i0 : ℕ) (hit : HitResult), hit.t = ⊤ →
      (shadowScanAux s ray tMax lightObj i0 objs hit = true ↔
        ∃ j, ∃ h : j < objs.length, some (i0 + j) ≠ lightObj ∧
          bestRoot ((objs.get ⟨j, h⟩).roots ray) s.epsilon tMax ≠ none) := by
  intro objs
  induction objs with
  | nil =>
    intro i0 hit htop
    simp [shadowScanAux]
  | cons o rest ih =>
    intro i0 hit htop
    by_cases hskip : some i0 ≠ lightObj
    · cases heq : (hitObjM o ray hit s.epsilon tMax).1 with
      | true =>
        have hne := (hitObjM_fst_default_iff htop).mp heq
        have : shadowScanAux s ray tMax lightObj i0 (o :: rest) hit = true := by
          simp [shadowScanAux, hskip, heq]
        rw [this]
        simp only [true_iff]
        exact ⟨0, by simp, by simpa using hskip, by simpa using hne⟩
      | false =>
        have hsnd : (hitObjM o ray hit s.epsilon tMax).2 = hit := by
          cases hr : bestRoot (o.roots ray) s.epsilon tMax with
          | none => simp [hitObjM, hr]
          | some t =>
            by_cases hlt : (t : WithTop ℚ) < hit.t
            · exfalso
              have : (hitObjM o ray hit s.epsilon tMax).1 = true := by
                simp [hitObjM, hr, hlt]
              rw [this] at heq
              cases heq
            · simp [hitObjM, hr, hlt]
        have hred : shadowScanAux s ray tMax lightObj i0 (o :: rest) hit
            = shadowScanAux s ray tMax lightObj (i0 + 1) rest hit := by
          simp [shadowScanAux, hskip, heq, hsnd]
        rw [hred, ih (i0 + 1) hit htop]
        constructor
        · rintro ⟨j, hj, hne, hroot⟩
          refine ⟨j + 1, by simp only [List.length_cons]; omega, ?_, by simpa using hroot⟩
          have : i0 + (j + 1) = i0 + 1 + j := by omega
          rw [this]
          exact hne
        · rintro ⟨j, hj, hne, hroot⟩
          match j with
          | 0 =>
            exfalso
            have hfalse : bestRoot (o.roots ray) s.epsilon tMax ≠ none := by
              simpa using hroot
            have := (hitObjM_fst_default_iff htop).mpr hfalse
            rw [this] at heq
            cases heq
          | k + 1 =>
            refine ⟨k, by simp only [List.length_cons] at hj; omega, ?_, by simpa using hroot⟩
            have : i0 + 1 + k = i0 + (k + 1) := by omega
            rw [this]
            exact hne
    · have hred : shadowScanAux s ray tMax lightObj i0 (o :: rest) hit
          = shadowScanAux s ray tMax lightObj (i0 + 1) rest hit := by
        simp [shadowScanAux, hskip]
      rw [hred, ih (i0 + 1) hit htop]
      constructor
      · rintro ⟨j, hj, hne, hroot⟩
        refine ⟨j + 1, by simp only [List.length_cons]; omega, ?_, by simpa using hroot⟩
        have : i0 + (j + 1) = i0 + 1 + j := by omega
        rw [this]
        exact hne
      · rintro ⟨j, hj, hne, hroot⟩
        match j with
        | 0 =>
          exfalso
          rw [not_not] at hskip
          simp only [Nat.add_zero] at hne
          exact hne hskip
        | k + 1 =>
          refine ⟨k, by simp only [List.length_cons] at hj; omega, ?_, by simpa using hroot⟩
          have : i0 + 1 + k = i0 + (k + 1) := by omega
          rw [this]
          exact hne

/-- C4: `IsPointInShadow` is true iff some scene object other than the
light's owning object intersects the ray from the point toward the light
with `t` in `[epsilon, distance-to-light]`; the light's own object never
occludes. -/
theorem isPointInShadow_iff_occluder (s : SceneM) (hitLoc lightLoc : Vec4)
    (lightObj : Option ℕ) :
    isPointInShadow s hitLoc lightLoc lightObj = true ↔
      ∃ i, ∃ h : i < s.objects.length, some i ≠ lightObj ∧
        ∃ t : ℚ,
          t ∈ (s.objects.get ⟨i, h⟩).roots
            ⟨hitLoc, normalizeV s.len (lightLoc - hitLoc)⟩ ∧
          s.epsilon ≤ t ∧
          (t : WithTop ℚ) ≤ ((s.len (lightLoc - hitLoc) : ℚ) : WithTop ℚ) := by
  unfold isPointInShadow
  rw [shadowScanAux_iff s ⟨hitLoc, normalizeV s.len (lightLoc - hitLoc)⟩
    ((s.len (lightLoc - hitLoc) : ℚ) : WithTop ℚ) lightObj s.objects 0 {} rfl]
  constructor
  · rintro ⟨j, hj, hne, hroot⟩
    rw [bestRoot_ne_none_iff] at hroot
    obtain ⟨t, hmem, h1, h2⟩ := hroot
    exact ⟨j, hj, by simpa using hne, t, hmem, h1, h2⟩
  · rintro ⟨i, hi, hne, t, hmem, h1, h2⟩
    exact ⟨i, hi, by simpa using hne, bestRoot_ne_none_iff.mpr ⟨t, hmem, h1, h2⟩⟩

/-- A conditional-accumulate fold starting from `a` equals `a` plus the same
fold from zero (the shape of the direct-lighting loop). -/
lemma foldl_light_shift (p : LightM → Bool) (f : LightM → Vec3)
    (lights : List LightM) (a : Vec3) :
    lights.foldl (fun acc light => if p light then acc + f light else acc) a
      = a + lights.foldl (fun acc light => if p light then acc + f light else acc) 0 := by
  induction lights generalizing a with
  | nil => simp
  | cons l ls ih =>
    simp only [List.foldl_cons]
    rw [ih, ih (if p l then 0 + f l else 0)]
    split_ifs <;> abel

/-- On a hit at `depth ≤ maxRecursionDepth`, `ComputeRayColor` is the clamp
of emissive + reflection + direct + global-illumination terms, with both
recursive calls at `depth + 1`. -/
lemma computeRayColor_hit_decompose (s : SceneM) (ray : Ray) (depth : ℕ) (spec : Bool)
    (i : ℕ) (hd : depth ≤ s.maxRecursionDepth)
    (hh : (findNearestHit s.objects ray s.epsilon).hitObject = some i) :
    computeRayColor s ray depth spec =
      ClampVector
        ((if depth = 0 ∨ spec = true then (s.objects.getD i default).mat.ke else 0)
          + reflTerm s ray (worldHit s ray (findNearestHit s.objects ray s.epsilon) (s.objects.getD i default)) (s.objects.getD i default).mat depth
          + directTerm s ray (worldHit s ray (findNearestHit s.objects ray s.epsilon) (s.objects.getD i default)) (s.objects.getD i default).mat
          + giTerm s (worldHit s ray (findNearestHit s.objects ray s.epsilon) (s.objects.getD i default)) (s.objects.getD i default).mat depth) 0 1 := by
  have hf : s.maxRecursionDepth + 1 - depth = (s.maxRecursionDepth - depth) + 1 := by omega
  have hcall : ∀ (r : Ray) (b : Bool),
      computeGo s (s.maxRecursionDepth - depth) r (depth + 1) b
        = computeRayColor s r (depth + 1) b := by
    intro r b
    unfold computeRayColor
    have hf2 : s.maxRecursionDepth + 1 - (depth + 1) = s.maxRecursionDepth - depth := by
      omega
    rw [hf2]
  unfold computeRayColor
  rw [hf]
  simp only [computeGo]
  rw [if_neg (by omega : ¬ s.maxRecursionDepth < depth)]
  simp only [hh]
  simp only [shadeHitWith, hcall]
  simp only [reflTerm, directTerm, giTerm, worldHit]
  rw [foldl_light_shift]
  simp only [Bool.or_eq_true, beq_iff_eq]
  congr 1
  split_ifs <;> simp [Prod.mk_zero_zero]

/-- C2: on a hit, the material's `ke` is the first term of the accumulated
(then clamped) color exactly when `depth = 0` or the ray is a specular
bounce; a diffuse bounce at `depth > 0` contributes no `ke`. -/
theorem emissive_iff_depth0_or_specular (s : SceneM) (ray : Ray) (depth : ℕ)
    (spec : Bool) (i : ℕ) (hd : depth ≤ s.maxRecursionDepth)
    (hh : (findNearestHit s.objects ray s.epsilon).hitObject = some i) :
    computeRayColor s ray depth spec =
      ClampVector
        ((if depth = 0 ∨ spec = true then (s.objects.getD i default).mat.ke else 0)
          + reflTerm s ray (worldHit s ray (findNearestHit s.objects ray s.epsilon) (s.objects.getD i default)) (s.objects.getD i default).mat depth
          + directTerm s ray (worldHit s ray (findNearestHit s.objects ray s.epsilon) (s.objects.getD i default)) (s.objects.getD i default).mat
          + giTerm s (worldHit s ray (findNearestHit s.objects ray s.epsilon) (s.objects.getD i default)) (s.objects.getD i default).mat depth) 0 1 :=
  computeRayColor_hit_decompose s ray depth spec i hd hh

/-- Witness for C2: a diffuse bounce (depth 1, non-specular) on the
emissive demo object — the emissive conditional evaluates to the zero
branch. -/
theorem emissive_iff_depth0_or_specular_witness :
    1 ≤ demoSceneE.maxRecursionDepth ∧
    (findNearestHit demoSceneE.objects demoRay demoSceneE.epsilon).hitObject = some 0 ∧
    computeRayColor demoSceneE demoRay 1 false =
      ClampVector
        ((if (1 : ℕ) = 0 ∨ false = true then (demoSceneE.objects.getD 0 default).mat.ke else 0)
          + reflTerm demoSceneE demoRay (worldHit demoSceneE demoRay (findNearestHit demoSceneE.objects demoRay demoSceneE.epsilon) (demoSceneE.objects.getD 0 default)) (demoSceneE.objects.getD 0 default).mat 1
          + directTerm demoSceneE demoRay (worldHit demoSceneE demoRay (findNearestHit demoSceneE.objects demoRay demoSceneE.epsilon) (demoSceneE.objects.getD 0 default)) (demoSceneE.objects.getD 0 default).mat
          + giTerm demoSceneE (worldHit demoSceneE demoRay (findNearestHit demoSceneE.objects demoRay demoSceneE.epsilon) (demoSceneE.objects.getD 0 default)) (demoSceneE.objects.getD 0 default).mat 1) 0 1 :=
  ⟨by decide, by decide,
    emissive_iff_depth0_or_specular demoSceneE demoRay 1 false 0 (by decide) (by decide)⟩

/-- C3: on a hit, the global-illumination term the source adds is the
recursive radiance multiplied componentwise by the Lambertian BRDF `kd/π`
and then by the explicit factor π, and (for π ≠ 0) that product equals
exactly `kd` times the recursive radiance. -/
theorem gi_net_weight_is_kd (s : SceneM) (ray : Ray) (depth : ℕ) (spec : Bool)
    (i : ℕ) (hd : depth ≤ s.maxRecursionDepth)
    (hh : (findNearestHit s.objects ray s.epsilon).hitObject = some i)
    (hpi : s.piv ≠ 0) :
    computeRayColor s ray depth spec =
      ClampVector
        ((if depth = 0 ∨ spec = true then (s.objects.getD i default).mat.ke else 0)
          + reflTerm s ray (worldHit s ray (findNearestHit s.objects ray s.epsilon) (s.objects.getD i default)) (s.objects.getD i default).mat depth
          + directTerm s ray (worldHit s ray (findNearestHit s.objects ray s.epsilon) (s.objects.getD i default)) (s.objects.getD i default).mat
          + giTerm s (worldHit s ray (findNearestHit s.objects ray s.epsilon) (s.objects.getD i default)) (s.objects.getD i default).mat depth) 0 1 ∧
    giTerm s (worldHit s ray (findNearestHit s.objects ray s.epsilon) (s.objects.getD i default)) (s.objects.getD i default).mat depth
      = (s.objects.getD i default).mat.kd *
          computeRayColor s
            ⟨(worldHit s ray (findNearestHit s.objects ray s.epsilon) (s.objects.getD i default)).loc,
              s.sampleHemi (worldHit s ray (findNearestHit s.objects ray s.epsilon) (s.objects.getD i default)).nor⟩
            (depth + 1) false := by
  refine ⟨computeRayColor_hit_decompose s ray depth spec i hd hh, ?_⟩
  unfold giTerm
  generalize computeRayColor s
    ⟨(worldHit s ray (findNearestHit s.objects ray s.epsilon) (s.objects.getD i default)).loc,
      s.sampleHemi (worldHit s ray (findNearestHit s.objects ray s.epsilon) (s.objects.getD i default)).nor⟩
    (depth + 1) false = C
  generalize (s.objects.getD i default).mat.kd = K
  obtain ⟨c1, c2, c3⟩ := C
  obtain ⟨k1, k2, k3⟩ := K
  simp only [vdiv3, Prod.smul_mk, Prod.mk_mul_mk, smul_eq_mul, Prod.mk.injEq]
  refine ⟨?_, ?_, ?_⟩ <;> field_simp <;> ring

/-- Witness for C3 at the emissive demo scene (π stand-in 3 ≠ 0). -/
theorem gi_net_weight_is_kd_witness :
    1 ≤ demoSceneE.maxRecursionDepth ∧
    (findNearestHit demoSceneE.objects demoRay demoSceneE.epsilon).hitObject = some 0 ∧
    demoSceneE.piv ≠ 0 ∧
    (computeRayColor demoSceneE demoRay 1 false =
      ClampVector
        ((if (1 : ℕ) = 0 ∨ false = true then (demoSceneE.objects.getD 0 default).mat.ke else 0)
          + reflTerm demoSceneE demoRay (worldHit demoSceneE demoRay (findNearestHit demoSceneE.objects demoRay demoSceneE.epsilon) (demoSceneE.objects.getD 0 default)) (demoSceneE.objects.getD 0 default).mat 1
          + directTerm demoSceneE demoRay (worldHit demoSceneE demoRay (findNearestHit demoSceneE.objects demoRay demoSceneE.epsilon) (demoSceneE.objects.getD 0 default)) (demoSceneE.objects.getD 0 default).mat
          + giTerm demoSceneE (worldHit demoSceneE demoRay (findNearestHit demoSceneE.objects demoRay demoSceneE.epsilon) (demoSceneE.objects.getD 0 default)) (demoSceneE.objects.getD 0 default).mat 1) 0 1 ∧
    giTerm demoSceneE (worldHit demoSceneE demoRay (findNearestHit demoSceneE.objects demoRay demoSceneE.epsilon) (demoSceneE.objects.getD 0 default)) (demoSceneE.objects.getD 0 default).mat 1
      = (demoSceneE.objects.getD 0 default).mat.kd *
          computeRayColor demoSceneE
            ⟨(worldHit demoSceneE demoRay (findNearestHit demoSceneE.objects demoRay demoSceneE.epsilon) (demoSceneE.objects.getD 0 default)).loc,
              demoSceneE.sampleHemi (worldHit demoSceneE demoRay (findNearestHit demoSceneE.objects demoRay demoSceneE.epsilon) (demoSceneE.objects.getD 0 default)).nor⟩
            2 false) :=
  ⟨by decide, by decide, by decide,
    gi_net_weight_is_kd demoSceneE demoRay 1 false 0 (by decide) (by decide) (by decide)⟩

/-- C9 (amended): a line whose leading directive is unrecognized is logged
verbatim (the state gains exactly that error line), the loop simply
continues with the remaining lines, and no line aborts the loader; but a
recognized directive with its fields missing — the truncated
`SceneObject Sphere` — is NOT detected: nothing is logged, the line is not
skipped, and a default-valued Sphere object is still appended. -/
theorem loader_unrecognized_logged_malformed_not (parseQ : String → Option ℚ)
    (line : List String) (st : LoadState) (ls : List (List String))
    (h1 : line.headD "" ≠ "Camera") (h2 : line.headD "" ≠ "SceneObject")
    (h3 : line.headD "" ≠ "#") :
    processLine parseQ st line = { st with errors := st.errors ++ [line] } ∧
    (line :: ls).foldl (processLine parseQ) st
      = ls.foldl (processLine parseQ) { st with errors := st.errors ++ [line] } ∧
    processLine parseQ st ["SceneObject", "Sphere"]
      = { st with objects := st.objects ++
          [⟨"Sphere", "", (0, 0, 0), (0, 0, 0), (0, 0, 0), (0, 0, 0), (0, 0, 0), (0, 0, 0), 0, 0⟩] } := by
  have hline : processLine parseQ st line = { st with errors := st.errors ++ [line] } := by
    match line with
    | [] =>
      simp only [List.headD_nil] at h1 h2 h3
      simp [processLine, readString, h1, h2, h3]
    | tok :: rest =>
      simp only [List.headD_cons] at h1 h2 h3
      simp [processLine, readString, h1, h2, h3]
  refine ⟨hline, ?_, ?_⟩
  · simp only [List.foldl_cons, hline]
  · simp [processLine, readString, readObject, readVec3, readQ, dot3]

/-- Counterexample to C9 as stated: feeding the malformed line
`SceneObject Sphere` to the loader logs NO error and does NOT skip the
line — a (default-valued) object is added. -/
theorem loader_malformed_line_not_logged :
    (BuildSceneFromFile (fun _ => none) [["SceneObject", "Sphere"]]).errors = [] ∧
    (BuildSceneFromFile (fun _ => none) [["SceneObject", "Sphere"]]).objects
      = [⟨"Sphere", "", (0, 0, 0), (0, 0, 0), (0, 0, 0), (0, 0, 0), (0, 0, 0), (0, 0, 0), 0, 0⟩] := by
  constructor <;>
    simp [BuildSceneFromFile, emptyLoad, processLine, readString, readObject, readVec3,
      readQ, dot3]

/-- Witness for C9's amended theorem: an unrecognized directive `Bogus` is
logged and parsing continues over a following line. -/
theorem loader_unrecognized_logged_malformed_not_witness :
    (["Bogus"] : List String).headD "" ≠ "Camera" ∧
    processLine (fun _ => none) emptyLoad ["Bogus"]
      = { emptyLoad with errors := emptyLoad.errors ++ [["Bogus"]] } ∧
    processLine (fun _ => none) emptyLoad ["SceneObject", "Sphere"]
      = { emptyLoad with objects := emptyLoad.objects ++
          [⟨"Sphere", "", (0, 0, 0), (0, 0, 0), (0, 0, 0), (0, 0, 0), (0, 0, 0), (0, 0, 0), 0, 0⟩] } :=
  ⟨by decide,
    (loader_unrecognized_logged_malformed_not (fun _ => none) ["Bogus"] emptyLoad []
      (by decide) (by decide) (by decide)).1,
    (loader_unrecognized_logged_malformed_not (fun _ => none) ["Bogus"] emptyLoad []
      (by decide) (by decide) (by decide)).2.2⟩

lemma dot3_smul_left (a : ℚ) (x y : Vec3) : dot3 (a • x) y = a * dot3 x y := by
  obtain ⟨x1, x2, x3⟩ := x
  obtain ⟨y1, y2, y3⟩ := y
  simp [dot3, Prod.smul_mk, smul_eq_mul]
  ring

lemma dot3_smul_right (a : ℚ) (x y : Vec3) : dot3 x (a • y) = a * dot3 x y := by
  obtain ⟨x1, x2, x3⟩ := x
  obtain ⟨y1, y2, y3⟩ := y
  simp [dot3, Prod.smul_mk, smul_eq_mul]
  ring

/-- C10: for samples `u, v ∈ [0, 1)` and a unit normal,
`RandomRayInHemisphere` returns a unit-length direction whose dot product
with the normal is nonnegative.  The sqrt/cos/sin values and the glm
rotation are parameters constrained, at the evaluated points, by exactly
the identities the real functions satisfy. -/
theorem randomRay_unit_and_in_hemisphere (m : TrigModel) (rot : Vec3 → Vec3)
    (normal : Vec4) (u v : ℚ)
    (hu0 : 0 ≤ u) (hu1 : u < 1) (hv0 : 0 ≤ v) (hv1 : v < 1)
    (hn : dot3 (vec4to3 normal) (vec4to3 normal) = 1)
    (hsu : m.sqrtF u ^ 2 = u)
    (hs1u : m.sqrtF (1 - u) ^ 2 = 1 - u) (hs1upos : 0 ≤ m.sqrtF (1 - u))
    (hcs : m.cosF (2 * m.piT * v) ^ 2 + m.sinF (2 * m.piT * v) ^ 2 = 1)
    (hrotd : ∀ a b : Vec3, dot3 (rot a) (rot b) = dot3 a b)
    (hrotup : rot ((0 : ℚ), (1 : ℚ), (0 : ℚ)) = vec4to3 normal) :
    0 ≤ dot3 (vec4to3 normal) (RandomRayInHemisphere m rot normal u v) ∧
    dot3 (RandomRayInHemisphere m rot normal u v)
      (RandomRayInHemisphere m rot normal u v) = 1 := by
  have hunit : dot3 (m.sqrtF u * m.cosF (2 * m.piT * v), m.sqrtF (1 - u),
      m.sqrtF u * m.sinF (2 * m.piT * v))
      (m.sqrtF u * m.cosF (2 * m.piT * v), m.sqrtF (1 - u),
      m.sqrtF u * m.sinF (2 * m.piT * v)) = 1 := by
    have hexp : dot3 (m.sqrtF u * m.cosF (2 * m.piT * v), m.sqrtF (1 - u),
        m.sqrtF u * m.sinF (2 * m.piT * v))
        (m.sqrtF u * m.cosF (2 * m.piT * v), m.sqrtF (1 - u),
        m.sqrtF u * m.sinF (2 * m.piT * v))
        = m.sqrtF u ^ 2 * (m.cosF (2 * m.piT * v) ^ 2 + m.sinF (2 * m.piT * v) ^ 2)
          + m.sqrtF (1 - u) ^ 2 := by
      simp only [dot3]
      ring
    rw [hexp, hcs, hsu, hs1u]
    ring
  have hupdot : dot3 ((0 : ℚ), (1 : ℚ), (0 : ℚ))
      (m.sqrtF u * m.cosF (2 * m.piT * v), m.sqrtF (1 - u),
      m.sqrtF u * m.sinF (2 * m.piT * v)) = m.sqrtF (1 - u) := by
    simp [dot3]
  simp only [RandomRayInHemisphere]
  split_ifs with hb1 hb2
  · constructor
    · rw [← hb1, hupdot]
      exact hs1upos
    · exact hunit
  · have hn3 : vec4to3 normal = (-1 : ℚ) • ((0 : ℚ), (1 : ℚ), (0 : ℚ)) := by
      rw [hb2, smul_smul]
      norm_num
    constructor
    · rw [hn3, dot3_smul_left, dot3_smul_right, hupdot]
      nlinarith [hs1upos]
    · rw [dot3_smul_left, dot3_smul_right, hunit]
      ring
  · constructor
    · rw [← hrotup, hrotd, hupdot]
      exact hs1upos
    · rw [hrotd]
      exact hunit

/-- Witness for C10 at the canonical up normal with samples `u = v = 0`. -/
theorem randomRay_unit_and_in_hemisphere_witness :
    (0 : ℚ) ≤ 0 ∧ (0 : ℚ) < 1 ∧
    dot3 (vec4to3 ((0 : ℚ), (1 : ℚ), (0 : ℚ), (0 : ℚ)))
      (vec4to3 ((0 : ℚ), (1 : ℚ), (0 : ℚ), (0 : ℚ))) = 1 ∧
    (0 ≤ dot3 (vec4to3 ((0 : ℚ), (1 : ℚ), (0 : ℚ), (0 : ℚ)))
        (RandomRayInHemisphere demoTrig id ((0 : ℚ), (1 : ℚ), (0 : ℚ), (0 : ℚ)) 0 0) ∧
      dot3 (RandomRayInHemisphere demoTrig id ((0 : ℚ), (1 : ℚ), (0 : ℚ), (0 : ℚ)) 0 0)
        (RandomRayInHemisphere demoTrig id ((0 : ℚ), (1 : ℚ), (0 : ℚ), (0 : ℚ)) 0 0) = 1) :=
  ⟨le_refl 0, by norm_num,
    by norm_num [dot3, vec4to3],
    randomRay_unit_and_in_hemisphere demoTrig id ((0 : ℚ), (1 : ℚ), (0 : ℚ), (0 : ℚ)) 0 0
      (le_refl 0) (by norm_num) (le_refl 0) (by norm_num)
      (by norm_num [dot3, vec4to3])
      (by norm_num [demoTrig])
      (by norm_num [demoTrig])
      (by norm_num [demoTrig])
      (by norm_num [demoTrig])
      (fun a b => rfl)
      (by norm_num [vec4to3])⟩
